import Mathlib

/-!
# Verification of `pretty_tracing_subscriber` (src/lib.rs)

A shallow embedding of the crate's two components:

* the verbosity resolver (`impl Into<LevelFilter> for Verbosity` and the
  filter selection in `init`), and
* the `EventFormatter` rendering pipeline (`time`, `level`, `module`,
  `file`, `write_context`, `write_span`, `format_event`).

Strings are modelled at the character level as `List Char` (the source
only manipulates ASCII separators, where Rust's byte indices and char
indices coincide).  `u8` arithmetic is modelled as `Nat` with explicit
checked operations.  The wall clock read in `EventFormatter::time` is an
explicit input (`now`), and the externally rendered field text is an
explicit input (`fields`).
-/

namespace PrettyTracing

/-- The five `tracing::Level` values carried by an event. -/
inductive Level where
  | error
  | warn
  | info
  | debug
  | trace
deriving DecidableEq, Repr

/-- `tracing_subscriber::filter::LevelFilter`: the six filter thresholds. -/
inductive LevelFilter where
  | off
  | error
  | warn
  | info
  | debug
  | trace
deriving DecidableEq, Repr

/-- Rank of a `LevelFilter` in the order OFF < ERROR < WARN < INFO < DEBUG < TRACE. -/
def LevelFilter.rank : LevelFilter → Nat
  | .off => 0
  | .error => 1
  | .warn => 2
  | .info => 3
  | .debug => 4
  | .trace => 5

/-- Rust `u8::checked_add`: `some (a + b)` unless the sum exceeds `u8::MAX`. -/
def checkedAdd8 (a b : Nat) : Option Nat :=
  if a + b ≤ 255 then some (a + b) else none

/-- Rust `u8::checked_sub`: `some (a - b)` unless the subtraction underflows. -/
def checkedSub8 (a b : Nat) : Option Nat :=
  if b ≤ a then some (a - b) else none

/-- Embedding of `impl Into<LevelFilter> for Verbosity` (src/lib.rs:60-75):
`verbose.checked_add(DEFAULT_VERBOSITY)` then `checked_sub(quiet)`, mapped
through the `match` on the resulting `Option<u8>`. -/
def intoLevelFilter (quiet verbose default : Nat) : LevelFilter :=
  match checkedAdd8 verbose default with
  | some v =>
    match checkedSub8 v quiet with
    | some 1 => .error
    | some 2 => .warn
    | some 3 => .info
    | some 4 => .debug
    | some 5 => .trace
    | some (_ + 6) => .trace
    | some 0 => .off
    | none => .off
  | none => .trace

/-- The decision made by `init` (src/lib.rs:51-56): either an explicit
filter expression or a numeric threshold. -/
inductive FilterDecision where
  | expression (s : List Char)
  | threshold (l : LevelFilter)
deriving DecidableEq, Repr

/-- Embedding of the filter selection in `init` (src/lib.rs:51-56): if
`log_filters` is present the registry gets `EnvFilter::from(log_filter)`,
otherwise the `LevelFilter` derived from the two counts. -/
def resolveFilter (quiet verbose default : Nat) (logFilters : Option (List Char)) :
    FilterDecision :=
  match logFilters with
  | some s => .expression s
  | none => .threshold (intoLevelFilter quiet verbose default)

/-- The threshold map as the spec words it (for the refinement claim C1):
saturating-on-overflow addition `default + verbose`, saturating-on-underflow
subtraction of `quiet`, then 0 → OFF, 1 → ERROR, 2 → WARN, 3 → INFO,
4 → DEBUG, 5 → TRACE, ≥ 6 → TRACE. -/
def specThreshold (quiet verbose default : Nat) : LevelFilter :=
  if 255 < default + verbose then .trace
  else if default + verbose < quiet then .off
  else
    match default + verbose - quiet with
    | 0 => .off
    | 1 => .error
    | 2 => .warn
    | 3 => .info
    | 4 => .debug
    | 5 => .trace
    | _ + 6 => .trace

/-- Closed form for the rank of the resolved threshold. -/
theorem rank_intoLevelFilter (quiet verbose default : Nat) :
    (intoLevelFilter quiet verbose default).rank =
      if verbose + default ≤ 255 then min (verbose + default - quiet) 5 else 5 := by
  unfold intoLevelFilter checkedAdd8 checkedSub8
  by_cases h : verbose + default ≤ 255
  · simp only [h, if_true]
    by_cases hq : quiet ≤ verbose + default
    · simp only [hq, if_true]
      rcases hd : verbose + default - quiet with _ | _ | _ | _ | _ | _ | n <;>
        simp [LevelFilter.rank]
    · simp only [hq, if_false]
      have : verbose + default - quiet = 0 := by omega
      simp [this, LevelFilter.rank]
  · simp [h, LevelFilter.rank]

/-! ## The event formatter -/

/-- An ANSI color used by the formatter (`ansi_term::Color`). -/
inductive Color where
  | red
  | yellow
  | green
  | blue
  | purple
deriving DecidableEq, Repr

/-- The foreground color code `ansi_term` emits for each color. -/
def Color.code : Color → List Char
  | .red => "31".data
  | .yellow => "33".data
  | .green => "32".data
  | .blue => "34".data
  | .purple => "35".data

/-- A styled piece of text, as produced by `ansi_term`'s `Style::paint` /
`Color::bold().paint`. -/
structure Styled where
  isBold : Bool
  color : Option Color
  text : List Char
deriving DecidableEq, Repr

/-- `Style::new().bold().paint(t)`. -/
def boldS (t : List Char) : Styled := ⟨true, none, t⟩

/-- Rendering of a styled string to the output stream: the ANSI escape
prefix built from the style codes, the text, then the reset sequence
(as `ansi_term` prints `ANSIGenericString` via `Display`). -/
def Styled.render (s : Styled) : List Char :=
  let codes := (if s.isBold then ["1".data] else []) ++
    (match s.color with | some c => [c.code] | none => [])
  match codes with
  | [] => s.text
  | c :: cs =>
    '\x1b' :: '[' :: (cs.foldl (fun acc d => acc ++ ';' :: d) c) ++
      'm' :: s.text ++ "\x1b[0m".data

/-- The data of one `tracing::Event` that the formatter reads: level,
`metadata().module_path()`, `metadata().file()`, `metadata().line()` and
`parent()` (a span id). -/
structure EventData where
  level : Level
  modulePath : Option (List Char)
  file : Option (List Char)
  line : Option Nat
  parent : Option Nat

/-- The span data the formatter reads through `FmtContext`: the names of
the ancestors from the chain root (`from_root()`, root first) and the
span's own name. -/
structure SpanInfo where
  fromRoot : List (List Char)
  name : List Char

/-- The span registry exposed by `FmtContext`: `ctx.span(id)` lookup and
`ctx.lookup_current()`. -/
structure SpanCtx where
  spanById : Nat → Option SpanInfo
  current : Option SpanInfo

/-- The formatter's configuration (`EventFormatter::new`). -/
structure FormatterConfig where
  root : List Char
  verbose : Bool

/-- Embedding of `EventFormatter::level` (src/lib.rs:100-108). -/
def levelStyled : Level → Styled
  | .error => ⟨true, some .red, "error:".data⟩
  | .warn => ⟨true, some .yellow, "warning:".data⟩
  | .info => ⟨true, some .green, "info:".data⟩
  | .debug => ⟨true, some .blue, "debug:".data⟩
  | .trace => ⟨true, some .purple, "trace:".data⟩

/-- Rust `str::get(i..)`: the suffix from index `i`, or `none` when `i`
is out of bounds. -/
def strFrom (i : Nat) (s : List Char) : Option (List Char) :=
  if i ≤ s.length then some (s.drop i) else none

/-- Rust `str::starts_with(p)`: does `s` begin with `p`? -/
def startsWithL (p s : List Char) : Bool :=
  match p, s with
  | [], _ => true
  | _ :: _, [] => false
  | a :: as, b :: bs => a = b && startsWithL as bs

/-- Embedding of `EventFormatter::module` (src/lib.rs:111-121): `none`
when not verbose, when the module path is missing, or when it equals the
root; the suffix after the first `root.length + 2` characters (via
`str::get`, propagating its `none`) when the path starts with the root;
the full path otherwise.  All three branches style the text bold. -/
def moduleSeg (verbose : Bool) (root : List Char) (modulePath : Option (List Char)) :
    Option Styled :=
  match modulePath with
  | none => none
  | some mp =>
    if !verbose || mp = root then none
    else if startsWithL root mp then (strFrom (root.length + 2) mp).map boldS
    else some (boldS mp)

/-- Rust `str::split(sep)` on one separator character (splitting `""`
yields `[""]`, as in Rust). -/
def splitChar (sep : Char) : List Char → List (List Char)
  | [] => [[]]
  | c :: rest =>
    match splitChar sep rest with
    | [] => if c = sep then [[], []] else [[c]]
    | h :: t => if c = sep then [] :: h :: t else (c :: h) :: t

/-- Embedding of `EventFormatter::file` (src/lib.rs:124-126): the last
component of the file path split on the platform path separator `/`. -/
def fileSeg (file : Option (List Char)) : Option (List Char) :=
  match file with
  | none => none
  | some f => (splitChar '/' f).getLast?

/-- Decimal rendering of a line number (Rust's `Display` for `u32`). -/
def natDigits (n : Nat) : List Char := (toString n).data

/-- Embedding of `EventFormatter::write_context` (src/lib.rs:129-154):
the module segment if present, then — when both file and line are
present — a `:` separator (only if a module was written) and `file:line`;
one trailing space iff anything was written. -/
def writeContext (module : Option Styled) (file : Option (List Char))
    (line : Option Nat) : List Char :=
  let m := match module with
    | some md => md.render
    | none => []
  let fl := match file, line with
    | some f, some n => (if module.isSome then [':'] else []) ++ f ++ ':' :: natDigits n
    | _, _ => []
  let seen := module.isSome || (file.isSome && line.isSome)
  m ++ fl ++ (if seen then [' '] else [])

/-- The loop body of `EventFormatter::write_span`: writes each name in
bold, preceded by `:` once a previous name has been seen. -/
def spanLoop (seen : Bool) : List (List Char) → List Char
  | [] => []
  | n :: rest => (if seen then [':'] else []) ++ (boldS n).render ++ spanLoop true rest

/-- `span.and_then(|id| ctx.span(id)).or_else(|| ctx.lookup_current())`
(src/lib.rs:169-171). -/
def resolveSpan (ctx : SpanCtx) (parent : Option Nat) : Option SpanInfo :=
  match parent.bind ctx.spanById with
  | some sp => some sp
  | none => ctx.current

/-- The name chain `span.from_root().chain(iter::once(span))` flat-mapped
over the resolved option (src/lib.rs:172-174). -/
def spanScope (resolved : Option SpanInfo) : List (List Char) :=
  match resolved with
  | none => []
  | some sp => sp.fromRoot ++ [sp.name]

/-- Embedding of `EventFormatter::write_span` (src/lib.rs:156-188): the
loop over the scope followed by one space iff any name was written. -/
def writeSpan (ctx : SpanCtx) (parent : Option Nat) : List Char :=
  let scope := spanScope (resolveSpan ctx parent)
  spanLoop false scope ++ (if scope.isEmpty then [] else [' '])

/-- Embedding of `EventFormatter::format_event` (src/lib.rs:196-219).
`now` is the rendered wall-clock time (`EventFormatter::time` reads the
clock only when verbose); `fields` is the text written by
`ctx.format_fields`. -/
def formatEvent (cfg : FormatterConfig) (ctx : SpanCtx) (e : EventData)
    (now : List Char) (fields : List Char) : List Char :=
  (if cfg.verbose then now ++ [' '] else []) ++
  writeContext (moduleSeg cfg.verbose cfg.root e.modulePath) (fileSeg e.file) e.line ++
  (if cfg.verbose then writeSpan ctx e.parent else []) ++
  (levelStyled e.level).render ++ [' '] ++
  fields ++ ['\n']

/-! ## Claims about the verbosity resolver -/

/-- Claim C1: for every pair of `u8` counts (quiet, verbose) and any `u8`
defaultLevel, the resolved threshold equals `defaultLevel + verbose - quiet`
mapped as: 0 or subtraction underflow gives OFF, 1 ERROR, 2 WARN, 3 INFO,
4 DEBUG, 5 TRACE, 6 or more TRACE, and overflow of the addition gives
TRACE — i.e. the code's conversion agrees with `specThreshold`, the map
written from the spec's words. -/
theorem intoLevelFilter_eq_specThreshold (quiet verbose default : Nat)
    (hq : quiet ≤ 255) (hv : verbose ≤ 255) (hd : default ≤ 255) :
    intoLevelFilter quiet verbose default = specThreshold quiet verbose default := by
  unfold intoLevelFilter specThreshold checkedAdd8 checkedSub8
  have hc : default + verbose = verbose + default := Nat.add_comm default verbose
  by_cases h : verbose + default ≤ 255
  · have h2 : ¬ 255 < default + verbose := by omega
    simp only [h, if_true, h2, if_false]
    by_cases h3 : quiet ≤ verbose + default
    · have h4 : ¬ verbose + default < quiet := by omega
      simp only [h3, if_true, hc, h4, if_false]
      rcases h5 : verbose + default - quiet with _ | _ | _ | _ | _ | _ | n <;> rfl
    · have h4 : default + verbose < quiet := by omega
      simp only [h3, if_false, h4, if_true]
  · have h2 : 255 < default + verbose := by omega
    simp only [h, if_false, h2, if_true]

/-- Witness for C1 at quiet = 10, verbose = 0, default = 2. -/
theorem intoLevelFilter_eq_specThreshold_witness :
    (10 ≤ 255 ∧ 0 ≤ 255 ∧ 2 ≤ 255) ∧
      intoLevelFilter 10 0 2 = specThreshold 10 0 2 :=
  ⟨by omega,
    intoLevelFilter_eq_specThreshold 10 0 2 (by omega) (by omega) (by omega)⟩

/-- Claim C3: when the explicit filter expression is present, `init`
returns that expression unchanged and the quiet/verbose counts have no
effect, for all values of the counts. -/
theorem resolveFilter_explicit_bypasses_counts (default : Nat) (s : List Char) :
    (∀ quiet verbose, resolveFilter quiet verbose default (some s) = .expression s) ∧
    (∀ q1 v1 q2 v2,
      resolveFilter q1 v1 default (some s) = resolveFilter q2 v2 default (some s)) :=
  ⟨fun _ _ => rfl, fun _ _ _ _ => rfl⟩

/-- Claim C4: for default ∈ {2, 4}, the resolved threshold (ranked in the
order OFF < ERROR < WARN < INFO < DEBUG < TRACE) is non-decreasing in the
verbose count with quiet fixed, and non-increasing in the quiet count with
verbose fixed. -/
theorem intoLevelFilter_monotone (default : Nat) (hd : default = 2 ∨ default = 4) :
    (∀ quiet v1 v2, v1 ≤ v2 →
      (intoLevelFilter quiet v1 default).rank ≤ (intoLevelFilter quiet v2 default).rank) ∧
    (∀ verbose q1 q2, q1 ≤ q2 →
      (intoLevelFilter q2 verbose default).rank ≤ (intoLevelFilter q1 verbose default).rank) := by
  constructor
  · intro quiet v1 v2 h
    rw [rank_intoLevelFilter, rank_intoLevelFilter]
    by_cases h1 : v1 + default ≤ 255 <;> by_cases h2 : v2 + default ≤ 255 <;>
      simp only [h1, h2, if_true, if_false] <;> omega
  · intro verbose q1 q2 h
    rw [rank_intoLevelFilter, rank_intoLevelFilter]
    by_cases h1 : verbose + default ≤ 255 <;>
      simp only [h1, if_true, if_false] <;> omega

/-- Witness for C4 at default = 2: raising verbose from 1 to 3 (quiet = 0)
does not lower the threshold. -/
theorem intoLevelFilter_monotone_witness :
    (2 = 2 ∨ 2 = 4) ∧ (1 : Nat) ≤ 3 ∧
      (intoLevelFilter 0 1 2).rank ≤ (intoLevelFilter 0 3 2).rank :=
  ⟨Or.inl rfl, by omega,
    (intoLevelFilter_monotone 2 (Or.inl rfl)).1 0 1 3 (by omega)⟩

/-! ## Claims about the module segment -/

/-- A list starts with itself followed by anything. -/
theorem startsWithL_append (p s : List Char) : startsWithL p (p ++ s) = true := by
  induction p with
  | nil => rfl
  | cons a as ih => simp [startsWithL, ih]

/-- `startsWithL` is reflexive. -/
theorem startsWithL_refl (l : List Char) : startsWithL l l = true := by
  have := startsWithL_append l []
  simpa using this

/-- Claim C2, counterexample: with root module `app` and module path
`appx::mod` — a plain string prefix of the root not followed by the `::`
separator — the code displays `:mod`, not the full module path as the
claim states. -/
theorem moduleSeg_plain_prefix_counterexample :
    startsWithL "app".data "appx::mod".data = true ∧
    moduleSeg true "app".data (some "appx::mod".data) = some (boldS ":mod".data) ∧
    some (boldS ":mod".data) ≠ some (boldS "appx::mod".data) := by
  refine ⟨by decide, by decide, by decide⟩

/-- Claim C2 as amended: in verbose mode, a module path equal to the root
is omitted; a path of the form `root ++ "::" ++ rest` shows only `rest`
(bold); a path that does not start with the root at all shows in full
(bold); and in general any path that starts with the root as a plain
string prefix (separator or not) but differs from it shows the path with
its first `rootLength + 2` characters removed, or is omitted when
`str::get` fails because the path is shorter than that.  With verbose off
the segment is always omitted. -/
theorem moduleSeg_amended :
    (∀ root, moduleSeg true root (some root) = none) ∧
    (∀ root rest,
      moduleSeg true root (some (root ++ ':' :: ':' :: rest)) = some (boldS rest)) ∧
    (∀ root mp, startsWithL root mp = false →
      moduleSeg true root (some mp) = some (boldS mp)) ∧
    (∀ root mp, startsWithL root mp = true → mp ≠ root →
      moduleSeg true root (some mp) = (strFrom (root.length + 2) mp).map boldS) ∧
    (∀ root mp, moduleSeg false root mp = none) := by
  refine ⟨?_, ?_, ?_, ?_, ?_⟩
  · intro root
    simp [moduleSeg]
  · intro root rest
    have hne : root ++ ':' :: ':' :: rest ≠ root := by
      intro h
      have := congrArg List.length h
      simp at this
    have hpre : startsWithL root (root ++ ':' :: ':' :: rest) = true :=
      startsWithL_append root (':' :: ':' :: rest)
    have hdrop : (root ++ ':' :: ':' :: rest).drop (root.length + 2) = rest := by
      have : root ++ ':' :: ':' :: rest = (root ++ [':', ':']) ++ rest := by simp
      rw [this]
      have hlen : (root ++ [':', ':']).length = root.length + 2 := by simp
      rw [← hlen, List.drop_left]
    have hlen2 : root.length + 2 ≤ (root ++ ':' :: ':' :: rest).length := by
      simp
    simp [moduleSeg, hne, hpre, strFrom, hlen2, hdrop, boldS]
  · intro root mp h
    have hne : mp ≠ root := by
      intro he
      rw [he, startsWithL_refl root] at h
      simp at h
    simp [moduleSeg, hne, h]
  · intro root mp h hne
    simp [moduleSeg, hne, h]
  · intro root mp
    cases mp <;> simp [moduleSeg]

/-- Witness for the amended C2 at root `app` and module path `other::mod`
(no shared prefix): the full path is displayed. -/
theorem moduleSeg_amended_witness :
    startsWithL "app".data "other::mod".data = false ∧
    moduleSeg true "app".data (some "other::mod".data) = some (boldS "other::mod".data) :=
  ⟨by decide, moduleSeg_amended.2.2.1 "app".data "other::mod".data (by decide)⟩

/-! ## Claims about the formatted line -/

/-- Claim C5: with verbose mode off, the output line has no timestamp
segment, no module segment and no span-chain segment: it is exactly the
file:line context (module passed as `none`) followed by the severity tag,
one space, the field text and the newline. -/
theorem formatEvent_nonverbose_shape (root : List Char) (ctx : SpanCtx)
    (e : EventData) (now fields : List Char) :
    formatEvent ⟨root, false⟩ ctx e now fields =
      writeContext none (fileSeg e.file) e.line ++
        (levelStyled e.level).render ++ [' '] ++ fields ++ ['\n'] := by
  cases he : e.modulePath <;> simp [formatEvent, moduleSeg, he]

/-- Claim C6: every output line decomposes as a prefix (time, context,
span chain) followed by exactly one rendered severity tag and one space,
then the fields; and the tag mapping is exactly ERROR → bold red
`error:`, WARN → bold yellow `warning:`, INFO → bold green `info:`,
DEBUG → bold blue `debug:`, TRACE → bold purple `trace:`, always bold and
colored. -/
theorem formatEvent_severity_tag (cfg : FormatterConfig) (ctx : SpanCtx)
    (e : EventData) (now fields : List Char) :
    (levelStyled .error = ⟨true, some .red, "error:".data⟩ ∧
     levelStyled .warn = ⟨true, some .yellow, "warning:".data⟩ ∧
     levelStyled .info = ⟨true, some .green, "info:".data⟩ ∧
     levelStyled .debug = ⟨true, some .blue, "debug:".data⟩ ∧
     levelStyled .trace = ⟨true, some .purple, "trace:".data⟩) ∧
    (levelStyled e.level).isBold = true ∧
    (levelStyled e.level).color ≠ none ∧
    formatEvent cfg ctx e now fields =
      ((if cfg.verbose then now ++ [' '] else []) ++
        writeContext (moduleSeg cfg.verbose cfg.root e.modulePath) (fileSeg e.file)
          e.line ++
        (if cfg.verbose then writeSpan ctx e.parent else [])) ++
      (levelStyled e.level).render ++ [' '] ++ fields ++ ['\n'] := by
  refine ⟨⟨rfl, rfl, rfl, rfl, rfl⟩, ?_, ?_, ?_⟩
  · cases e.level <;> rfl
  · cases e.level <;> simp [levelStyled]
  · simp [formatEvent]

/-- Claim C9: with verbose mode off the formatter never reads the wall
clock, so the output is byte-identical across calls with the same event,
context and fields, whatever the clock says at each call. -/
theorem formatEvent_nonverbose_deterministic (root : List Char) (ctx : SpanCtx)
    (e : EventData) (now1 now2 fields : List Char) :
    formatEvent ⟨root, false⟩ ctx e now1 fields =
      formatEvent ⟨root, false⟩ ctx e now2 fields := rfl

/-! ## Claims about the file segment and context joining -/

/-- `str::split` always yields at least one piece. -/
theorem splitChar_ne_nil (c : Char) (l : List Char) : splitChar c l ≠ [] := by
  cases l with
  | nil => simp [splitChar]
  | cons a rest =>
    simp only [splitChar]
    cases h : splitChar c rest with
    | nil => by_cases ha : a = c <;> simp [ha]
    | cons x t => by_cases ha : a = c <;> simp [ha]

/-- Splitting a list that does not contain the separator yields the list
itself as its single piece. -/
theorem splitChar_of_not_mem (c : Char) (l : List Char) (h : c ∉ l) :
    splitChar c l = [l] := by
  induction l with
  | nil => rfl
  | cons a rest ih =>
    have ha : a ≠ c := fun he => h (he ▸ List.mem_cons_self a rest)
    have hr : c ∉ rest := fun hm => h (List.mem_cons_of_mem a hm)
    simp only [splitChar, ih hr]
    simp [ha]

/-- Splitting distributes over an occurrence of the separator. -/
theorem splitChar_append (c : Char) (p n : List Char) :
    splitChar c (p ++ c :: n) = splitChar c p ++ splitChar c n := by
  induction p with
  | nil =>
    simp only [List.nil_append, splitChar]
    cases h : splitChar c n with
    | nil => exact absurd h (splitChar_ne_nil c n)
    | cons x t => simp
  | cons a p ih =>
    simp only [List.cons_append, splitChar, List.append_eq]
    rw [ih]
    cases hp : splitChar c p with
    | nil => exact absurd hp (splitChar_ne_nil c p)
    | cons x t => by_cases ha : a = c <;> simp [ha]

/-- Claim C7: the file segment keeps only the final path-segment of the
file path (`/a/b/c.ext` with line 42 yields `c.ext:42`), is dropped when
file or line is missing, and `write_context` joins the module and
file:line parts with a single colon, shows either alone, emits nothing
when both are absent, and appends exactly one trailing space whenever
anything was emitted. -/
theorem writeContext_join :
    (∀ p n, '/' ∉ n → fileSeg (some (p ++ '/' :: n)) = some n) ∧
    (∀ f, '/' ∉ f → fileSeg (some f) = some f) ∧
    fileSeg none = none ∧
    (∀ m f n, writeContext (some m) (some f) (some n) =
      m.render ++ ':' :: (f ++ ':' :: natDigits n) ++ [' ']) ∧
    (∀ m l, writeContext (some m) none l = m.render ++ [' ']) ∧
    (∀ m f, writeContext (some m) f none = m.render ++ [' ']) ∧
    (∀ f n, writeContext none (some f) (some n) = f ++ ':' :: natDigits n ++ [' ']) ∧
    (∀ l, writeContext none none l = []) ∧
    (∀ f, writeContext none f none = []) ∧
    fileSeg (some "/a/b/c.ext".data) = some "c.ext".data ∧
    writeContext none (fileSeg (some "/a/b/c.ext".data)) (some 42) = "c.ext:42 ".data := by
  refine ⟨?_, ?_, rfl, ?_, ?_, ?_, ?_, ?_, ?_, by decide, by decide⟩
  · intro p n h
    simp only [fileSeg, splitChar_append, splitChar_of_not_mem '/' n h]
    rw [List.getLast?_append_of_ne_nil _ (by simp)]
    rfl
  · intro f h
    simp [fileSeg, splitChar_of_not_mem '/' f h]
  · intro m f n
    simp [writeContext]
  · intro m l
    cases l <;> simp [writeContext]
  · intro m f
    cases f <;> simp [writeContext]
  · intro f n
    simp [writeContext]
  · intro l
    cases l <;> simp [writeContext]
  · intro f
    cases f <;> simp [writeContext]

/-- Witness for C7: stripping the directories from `/a/b/c.ext`. -/
theorem writeContext_join_witness :
    ('/' ∉ "c.ext".data) ∧
      fileSeg (some ("/a/b".data ++ '/' :: "c.ext".data)) = some "c.ext".data :=
  ⟨by decide, writeContext_join.1 "/a/b".data "c.ext".data (by decide)⟩

/-! ## Claims about the span chain -/

/-- Joining a list of pieces with a separator, no separator before the
first or after the last piece. -/
def joinSep (sep : List Char) : List (List Char) → List Char
  | [] => []
  | [x] => x
  | x :: y :: t => x ++ sep ++ joinSep sep (y :: t)

/-- Once a name has been seen, the span loop writes a leading colon. -/
theorem spanLoop_true (l : List (List Char)) :
    spanLoop true l = (if l.isEmpty then [] else ':' :: spanLoop false l) := by
  cases l with
  | nil => rfl
  | cons n rest => simp [spanLoop]

/-- The span loop writes the bold names joined by single colons. -/
theorem spanLoop_join (l : List (List Char)) :
    spanLoop false l = joinSep [':'] (l.map fun nm => (boldS nm).render) := by
  induction l with
  | nil => rfl
  | cons n rest ih =>
    cases rest with
    | nil => simp [spanLoop, joinSep]
    | cons m t =>
      have h1 : spanLoop false (n :: m :: t) = (boldS n).render ++ spanLoop true (m :: t) := by
        simp [spanLoop]
      rw [h1, spanLoop_true, ih]
      simp [joinSep]

/-- Claim C8: the starting span is the event's declared parent if its id
resolves, else the currently active span, else none; a resolved span's
chain is written root-to-leaf, each name bold, single colons between
consecutive names and one trailing space; nothing is written when no span
resolves; the segment appears (between the context and the severity tag)
only in verbose mode and is absent with verbose off. -/
theorem writeSpan_chain :
    (∀ ctx i sp, SpanCtx.spanById ctx i = some sp → resolveSpan ctx (some i) = some sp) ∧
    (∀ ctx, resolveSpan ctx none = SpanCtx.current ctx) ∧
    (∀ ctx i, SpanCtx.spanById ctx i = none → resolveSpan ctx (some i) = SpanCtx.current ctx) ∧
    (∀ ctx parent sp, resolveSpan ctx parent = some sp →
      writeSpan ctx parent =
        joinSep [':']
          ((sp.fromRoot ++ [sp.name]).map fun nm => (boldS nm).render) ++ [' ']) ∧
    (∀ ctx parent, resolveSpan ctx parent = none → writeSpan ctx parent = []) ∧
    (∀ root ctx e now fields,
      formatEvent ⟨root, true⟩ ctx e now fields =
        now ++ [' '] ++
          writeContext (moduleSeg true root e.modulePath) (fileSeg e.file) e.line ++
          writeSpan ctx e.parent ++
          (levelStyled e.level).render ++ [' '] ++ fields ++ ['\n']) ∧
    (∀ root ctx e now fields,
      formatEvent ⟨root, false⟩ ctx e now fields =
        writeContext (moduleSeg false root e.modulePath) (fileSeg e.file) e.line ++
          (levelStyled e.level).render ++ [' '] ++ fields ++ ['\n']) ∧
    writeSpan ⟨fun _ => none, some ⟨["outer".data], "inner".data⟩⟩ none =
      (boldS "outer".data).render ++ ':' :: (boldS "inner".data).render ++ [' '] := by
  refine ⟨?_, ?_, ?_, ?_, ?_, ?_, ?_, ?_⟩
  · intro ctx i sp h
    simp [resolveSpan, h]
  · intro ctx
    rfl
  · intro ctx i h
    simp [resolveSpan, h]
  · intro ctx parent sp h
    simp [writeSpan, h, spanScope, spanLoop_join]
  · intro ctx parent h
    simp [writeSpan, h, spanScope, spanLoop]
  · intro root ctx e now fields
    simp [formatEvent]
  · intro root ctx e now fields
    simp [formatEvent]
  · rfl

/-- Witness for C8: a currently active span `inner` inside `outer`, with
no declared parent, renders as `outer:inner ` (bold names). -/
theorem writeSpan_chain_witness :
    resolveSpan ⟨fun _ => none, some ⟨["outer".data], "inner".data⟩⟩ none =
      some ⟨["outer".data], "inner".data⟩ ∧
    writeSpan ⟨fun _ => none, some ⟨["outer".data], "inner".data⟩⟩ none =
      joinSep [':']
        ((["outer".data] ++ ["inner".data]).map fun nm => (boldS nm).render) ++ [' '] :=
  ⟨rfl, writeSpan_chain.2.2.2.1 _ none ⟨["outer".data], "inner".data⟩ rfl⟩

/-- Claim C10: the file:line part of the context is not gated on verbose
mode — an event carrying both a file path and a line number shows
`file:line ` even with verbose off (only the module part is gated). -/
theorem formatEvent_file_line_ungated (root : List Char) (ctx : SpanCtx)
    (e : EventData) (now fields f : List Char) (n : Nat)
    (hf : EventData.file e = some f) (hl : EventData.line e = some n) :
    ∃ g, fileSeg (some f) = some g ∧
      formatEvent ⟨root, false⟩ ctx e now fields =
        (g ++ ':' :: natDigits n ++ [' ']) ++
          (levelStyled e.level).render ++ [' '] ++ fields ++ ['\n'] := by
  cases hg : (splitChar '/' f).getLast? with
  | none =>
    rw [List.getLast?_eq_none_iff] at hg
    exact absurd hg (splitChar_ne_nil '/' f)
  | some g =>
    refine ⟨g, hg, ?_⟩
    cases he : e.modulePath <;>
      simp [formatEvent, moduleSeg, he, hf, hl, fileSeg, hg, writeContext]

/-- Witness for C10: an INFO event at `/a/b/c.ext:42`, verbose off. -/
theorem formatEvent_file_line_ungated_witness :
    ∃ g, fileSeg (some "/a/b/c.ext".data) = some g ∧
      formatEvent ⟨"app".data, false⟩ ⟨fun _ => none, none⟩
          ⟨.info, none, some "/a/b/c.ext".data, some 42, none⟩ "12:00:00.000".data
          "k=v".data =
        (g ++ ':' :: natDigits 42 ++ [' ']) ++
          (levelStyled .info).render ++ [' '] ++ "k=v".data ++ ['\n'] :=
  formatEvent_file_line_ungated "app".data ⟨fun _ => none, none⟩
    ⟨.info, none, some "/a/b/c.ext".data, some 42, none⟩ "12:00:00.000".data
    "k=v".data "/a/b/c.ext".data 42 rfl rfl

end PrettyTracing
